import Mathlib

/-!
Verification development for the BBPS proxy forwarding engine.

This file gives a shallow embedding, in Lean 4, of the core components of
the FastAPIProxyBBPS repository and proves properties of them:

* the endpoint registry (`app/core/config.py`, class `Settings`):
  category base-URL resolution with environment override, endpoint
  templates, path-parameter substitution, `get_full_url`;
* the forwarding engine (`app/services/proxy.py`,
  `ProxyForwarder.forward_request`): the retry loop with exponential
  backoff, transport-failure handling, JSON-body handling and header or
  field injection, the synthetic CONFIG_ERROR and CONNECTION_ERROR
  payloads;
* the response normalizer (`app/api/deps.py`, `normalize_response`);
* the rate limiter (`app/core/security.py`, `RateLimiter.is_allowed`);
* the structured logger redaction (`src/utils/logger.py`, `log_request`).

Python dictionaries are modelled as ordered association lists of
string keys and JSON values (`JsonObj`); Python floats (timestamps,
retry delays) are modelled as rationals; the network is modelled as an
oracle mapping the attempt index to the outcome of that attempt.
-/

namespace BBPS

mutual

/-- Generic JSON value, mirroring the schema-free payloads the proxy
handles.  `JsonObj` keeps key order, like a Python dict. -/
inductive JsonValue where
  | null
  | bool (b : Bool)
  | num (n : Int)
  | str (s : String)
  | arr (xs : JsonArr)
  | obj (o : JsonObj)
  deriving DecidableEq

inductive JsonArr where
  | nil
  | cons (v : JsonValue) (rest : JsonArr)
  deriving DecidableEq

inductive JsonObj where
  | nil
  | cons (k : String) (v : JsonValue) (rest : JsonObj)
  deriving DecidableEq
end

/-- Build a `JsonObj` from a list of key/value pairs (insertion order). -/
def JsonObj.ofList : List (String × JsonValue) → JsonObj
  | [] => .nil
  | (k, v) :: rest => .cons k v (JsonObj.ofList rest)

/-- The entries of an object, in order. -/
def JsonObj.entries : JsonObj → List (String × JsonValue)
  | .nil => []
  | .cons k v rest => (k, v) :: rest.entries

/-- First value bound to a key, like `dict.get(k)` returning `None` as
`none` when the key is absent. -/
def JsonObj.get? : JsonObj → String → Option JsonValue
  | .nil, _ => none
  | .cons k v rest, key => if k = key then some v else rest.get? key

/-- Like Python `dict.get(k, d)`. -/
def JsonObj.getD (o : JsonObj) (key : String) (d : JsonValue) : JsonValue :=
  (o.get? key).getD d

/-- Key membership, like Python `k in d`. -/
def JsonObj.hasKey (o : JsonObj) (key : String) : Bool :=
  (o.get? key).isSome

/-- Assignment `d[k] = v`: replaces the binding in place when the key is
present, otherwise appends a new binding at the end, exactly as a Python
dict does. -/
def JsonObj.set : JsonObj → String → JsonValue → JsonObj
  | .nil, key, v => .cons key v .nil
  | .cons k w rest, key, v =>
      if k = key then .cons key v rest else .cons k w (rest.set key v)

/-- Keep only the entries whose key satisfies the predicate (the dict
comprehensions in the source filter on the key only). -/
def JsonObj.filterKeys : JsonObj → (String → Bool) → JsonObj
  | .nil, _ => .nil
  | .cons k v rest, p =>
      if p k then .cons k v (rest.filterKeys p) else rest.filterKeys p

/-- Emptiness test; an empty dict is falsy in Python. -/
def JsonObj.isEmpty : JsonObj → Bool
  | .nil => true
  | .cons _ _ _ => false

/-- Number of entries, like `len(d)`. -/
def JsonObj.length : JsonObj → Nat
  | .nil => 0
  | .cons _ _ rest => rest.length + 1

/-- Python truthiness of a JSON value (`bool(v)`). -/
def JsonValue.truthy : JsonValue → Bool
  | .null => false
  | .bool b => b
  | .num n => n != 0
  | .str s => s ≠ ""
  | .arr .nil => false
  | .arr (.cons _ _) => true
  | .obj o => !o.isEmpty

/-- Python equality test of a value against a string literal
(`v == "lit"`): true exactly when the value is that string. -/
def JsonValue.isStr : JsonValue → String → Bool
  | .str s, t => s = t
  | _, _ => false

/-!
Endpoint registry: shallow embedding of `app/core/config.py`
(class `Settings`, classmethods `get_category_urls`,
`get_category_base_url`, `get_endpoint_template`, `get_full_url`).
The loaded YAML mapping and the process environment are explicit fields.
-/

/-- Python `str.upper()`, written as a structural map over the character
list so that concrete instances evaluate inside the kernel
(`String.toUpper` maps the same `Char.toUpper` but through a
position-based loop that does not reduce definitionally). -/
def strUpper (s : String) : String := String.mk (s.data.map Char.toUpper)

/-- Python `str.lower()`, structural counterpart of `String.toLower`. -/
def strLower (s : String) : String := String.mk (s.data.map Char.toLower)

/-- First value bound to a key in an association list, with default. -/
def lookupD {α : Type} (l : List (String × α)) (key : String) (d : α) : α :=
  match l with
  | [] => d
  | (k, v) :: rest => if k = key then v else lookupD rest key d

/-- Configuration state of `Settings`: the parsed `bbps_urls.yaml`
mapping `category -> \x7b base_url, endpoint_key -> path_template \x7d`,
and the process environment (for the per-category base-URL override).
An unset environment variable and one set to the empty string behave
identically in the source (both are falsy), so the environment is
modelled as a list defaulting to the empty string. -/
structure BBPSConfig where
  bbps_backend_urls : List (String × List (String × String))
  env : List (String × String)

/-- Embedding of `Settings.get_category_urls`. -/
def BBPSConfig.get_category_urls (cfg : BBPSConfig) (category : String) :
    List (String × String) :=
  lookupD cfg.bbps_backend_urls category []

/-- Embedding of `Settings.get_category_base_url`: the environment
override `BBPS_<CATEGORY>_BASE_URL` takes precedence when truthy, else
the configured `base_url`, else the empty string. -/
def BBPSConfig.get_category_base_url (cfg : BBPSConfig) (category : String) :
    String :=
  let env_url := lookupD cfg.env ("BBPS_" ++ strUpper category ++ "_BASE_URL") ""
  if env_url ≠ "" then env_url
  else lookupD (cfg.get_category_urls category) "base_url" ""

/-- Embedding of `Settings.get_endpoint_template`. -/
def BBPSConfig.get_endpoint_template (cfg : BBPSConfig)
    (category endpoint_key : String) : String :=
  lookupD (cfg.get_category_urls category) endpoint_key ""

/-- Path-parameter substitution: each `\x7bname\x7d` token is replaced by
the supplied value (all occurrences, like Python `str.replace`). -/
def substPathParams (endpoint : String) (path_params : List (String × String)) :
    String :=
  path_params.foldl (fun e p => e.replace ("\x7b" ++ p.1 ++ "\x7d") p.2) endpoint

/-- Embedding of `Settings.get_full_url`: base URL concatenated with the
substituted endpoint template.  Missing pieces contribute the empty
string; the result is empty only when both are missing. -/
def BBPSConfig.get_full_url (cfg : BBPSConfig) (category endpoint_key : String)
    (path_params : List (String × String)) : String :=
  let base_url := cfg.get_category_base_url category
  let endpoint := lookupD (cfg.get_category_urls category) endpoint_key ""
  base_url ++ substPathParams endpoint path_params

/-!
Structured logger: shallow embedding of `src/utils/logger.py`.
`log_request` builds a log record and redacts sensitive fields from the
payload copy placed in it.  The emission to the logging framework and
the time-based generation of the request id are I/O and are modelled by
passing the generated `request_id` and `timestamp` strings explicitly.
-/

/-- Field names whose lowercased form is dropped from logged payloads. -/
def sensitiveKeys : List String := ["password", "pin", "otp", "cvv"]

/-- The redacted copy `safe_data` of a request payload:
`\x7bk: v for k, v in request_data.items() if k.lower() not in
["password", "pin", "otp", "cvv"]\x7d`. -/
def redact (request_data : JsonObj) : JsonObj :=
  request_data.filterKeys (fun k => !(sensitiveKeys.contains (strLower k)))

/-- The log record emitted by `log_request`.  A falsy `request_data`
(absent or empty) contributes no `payload` field at all; otherwise the
redacted copy is attached under `payload`. -/
def log_request_record (category endpoint method : String)
    (request_data : Option JsonObj) (request_id timestamp : String) : JsonObj :=
  let log_data := JsonObj.ofList
    [("request_id", .str request_id), ("timestamp", .str timestamp),
     ("category", .str category), ("endpoint", .str endpoint),
     ("method", .str method), ("type", .str "REQUEST")]
  match request_data with
  | some rd => if !rd.isEmpty then log_data.set "payload" (.obj (redact rd))
               else log_data
  | none => log_data

/-!
Response normalizer: shallow embedding of `normalize_response` in
`app/api/deps.py` (the copy in `src/routes/base_router.py` is
byte-identical in logic).  The `datetime.utcnow().isoformat()` default
for the timestamp is passed in as `now`.  `normalize_response` below is
the computation of the six values the function hands to the pydantic
`BBPSResponse(...)` constructor (its local variables `success`,
`message`, `data`, `errors` and the two `get` calls);
`normalize_response_checked` is the full function including the
constructor, whose pydantic v2 type validation can reject those values
and raise a `ValidationError` instead of returning — modelled as
`none`.
-/

/-- Canonical response envelope (`app/schemas/responses.py`,
`BBPSResponse`).  Field values are kept as raw JSON values. -/
structure BBPSResponse where
  success : JsonValue
  message : JsonValue
  data : JsonValue
  request_id : JsonValue
  timestamp : JsonValue
  errors : JsonValue
  deriving DecidableEq

/-- Reserved envelope keys excluded from the residual `data` object. -/
def excluded_keys : List String :=
  ["success", "message", "request_id", "timestamp", "errors", "error_code",
   "details"]

/-- Local variable `success` of `normalize_response`:
`response_data.get("success", 200 <= status_code < 300)`. -/
def normSuccess (response_data : JsonObj) (status_code : Nat) : JsonValue :=
  response_data.getD "success"
    (.bool (decide (200 ≤ status_code ∧ status_code < 300)))

/-- Local variable `message` of `normalize_response`: the raw message
when truthy, else a default chosen by the `if not message` cascade. -/
def normMessage (response_data : JsonObj) (status_code : Nat) : JsonValue :=
  let message0 := response_data.getD "message" (.str "")
  if message0.truthy then message0
  else if (normSuccess response_data status_code).truthy
    then .str "Request processed successfully"
  else if (response_data.getD "error_code" .null).isStr "CONNECTION_ERROR"
    then .str "Failed to connect to BBPS backend"
  else if (response_data.getD "error_code" .null).isStr "CONFIG_ERROR"
    then .str "Configuration error"
  else .str "Request failed"

/-- Local variable `data` of `normalize_response`: the explicit `data`
value when the key is present, else the residual object of all
non-reserved keys, `null` when that residual is empty. -/
def normData (response_data : JsonObj) : JsonValue :=
  if response_data.hasKey "data" then response_data.getD "data" .null
  else
    let remaining := response_data.filterKeys
      (fun k => !(excluded_keys.contains k))
    if remaining.isEmpty then .null else .obj remaining

/-- Local variable `error_details` of `normalize_response`: the single
synthesized error entry, preferring `\x7bcode: error_code, message:
details or message\x7d`, then `\x7bcode: "ERROR", message: message\x7d`,
then the UNKNOWN_ERROR default. -/
def error_details (response_data : JsonObj) (status_code : Nat) : JsonValue :=
  if (response_data.getD "error_code" .null).truthy then
    .arr (.cons (.obj (.cons "code"
      (response_data.getD "error_code" (.str "UNKNOWN"))
      (.cons "message"
        (let d := response_data.getD "details" .null
         if d.truthy then d
         else response_data.getD "message" (.str "An error occurred"))
        .nil))) .nil)
  else if (response_data.getD "message" .null).truthy then
    .arr (.cons (.obj (.cons "code" (.str "ERROR")
      (.cons "message"
        (response_data.getD "message" (.str "An error occurred"))
        .nil))) .nil)
  else
    .arr (.cons (.obj (.cons "code" (.str "UNKNOWN_ERROR")
      (.cons "message"
        (.str ("Request failed with status code " ++
          toString status_code))
        .nil))) .nil)

/-- Local variable `errors` of `normalize_response`: only populated when
`success` is falsy; a truthy backend-supplied list passes through, else
the single synthesized `error_details` entry. -/
def normErrors (response_data : JsonObj) (status_code : Nat) : JsonValue :=
  if !(normSuccess response_data status_code).truthy then
    match response_data.getD "errors" .null with
    | .arr (.cons e rest) => .arr (.cons e rest)
    | _ => error_details response_data status_code
  else .null

/-- Embedding of the value computation of
`normalize_response(response_data, status_code)`: the six values the
source hands to the `BBPSResponse(...)` constructor. -/
def normalize_response (response_data : JsonObj) (status_code : Nat)
    (now : String) : BBPSResponse :=
  { success := normSuccess response_data status_code
    message := normMessage response_data status_code
    data := normData response_data
    request_id := response_data.getD "request_id" .null
    timestamp := response_data.getD "timestamp" (.str now)
    errors := normErrors response_data status_code }

/-- Whether a value is acceptable for a pydantic v2 `str` field: v2
performs no `int`-to-`str` or `None`-to-`str` coercion. -/
def isStrValue : JsonValue → Bool
  | .str _ => true
  | _ => false

/-- Whether a value is acceptable for a pydantic v2 `Optional[str]`
field. -/
def isOptStrValue : JsonValue → Bool
  | .null => true
  | .str _ => true
  | _ => false

/-- Whether every value of an object is a string
(`Dict[str, str]` validation; keys are strings by construction). -/
def objValuesAllStr : JsonObj → Bool
  | .nil => true
  | .cons _ v rest => isStrValue v && objValuesAllStr rest

/-- Whether every element of an array is a string-valued object
(`List[Dict[str, str]]` validation). -/
def arrAllStrObj : JsonArr → Bool
  | .nil => true
  | .cons (.obj o) rest => objValuesAllStr o && arrAllStrObj rest
  | .cons _ _ => false

/-- Whether a value is acceptable for the
`Optional[List[Dict[str, str]]]` field `errors`. -/
def errorsFieldOk : JsonValue → Bool
  | .null => true
  | .arr xs => arrAllStrObj xs
  | _ => false

/-- Validation the pydantic v2 `BBPSResponse(...)` constructor performs
on the six computed values, per the annotations in
`app/schemas/responses.py`: `success: bool`, `message: str`,
`data: Optional[Any]` (anything), `request_id: Optional[str]`,
`timestamp: str` (an explicitly passed `None` is rejected despite the
`default_factory`), `errors: Optional[List[Dict[str, str]]]`.  Pydantic
lax mode additionally coerces a handful of scalar encodings into `bool`
(0/1, "true"/"false", ...); the theorems below only ever quantify over
exact booleans for `success`, where the model and the library agree. -/
def pydCheck (e : BBPSResponse) : Bool :=
  (match e.success with | .bool _ => true | _ => false) &&
  isStrValue e.message &&
  isOptStrValue e.request_id &&
  isStrValue e.timestamp &&
  errorsFieldOk e.errors

/-- Embedding of the full `normalize_response`, constructor included: a
`ValidationError` raised by `BBPSResponse(...)` is `none`. -/
def normalize_response_checked (response_data : JsonObj) (status_code : Nat)
    (now : String) : Option BBPSResponse :=
  let e := normalize_response response_data status_code now
  if pydCheck e then some e else none

/-!
Rate limiter: shallow embedding of `app/core/security.py`,
`RateLimiter.is_allowed`.  Timestamps (`datetime.utcnow().timestamp()`)
are rationals supplied as `now`; the per-client lists live in an ordered
association map keyed by `"rate:" ++ client_id`.  The method both
returns the decision and mutates the stored list, so the embedding
returns the new limiter state alongside the decision.
-/

/-- Default of `settings.RATE_LIMIT_REQUESTS`. -/
def RATE_LIMIT_REQUESTS : Nat := 100

/-- Default of `settings.RATE_LIMIT_PERIOD`. -/
def RATE_LIMIT_PERIOD : Nat := 60

/-- In-memory per-client request-timestamp lists. -/
structure RateLimiter where
  _requests : List (String × List ℚ)
  deriving DecidableEq

/-- Store a list under a key, replacing the first binding in place or
appending a new one (Python dict assignment). -/
def setAssoc : List (String × List ℚ) → String → List ℚ →
    List (String × List ℚ)
  | [], key, v => [(key, v)]
  | (k, w) :: rest, key, v =>
      if k = key then (key, v) :: rest else (k, w) :: setAssoc rest key v

/-- Result of one admission check plus the limiter state after it. -/
structure RateDecision where
  allowed : Bool
  retry_after : Int
  state : RateLimiter
  deriving DecidableEq

/-- Embedding of `RateLimiter.is_allowed(client_id, limit, period)`.
`limit or settings.RATE_LIMIT_REQUESTS` treats both `None` and `0` as
falsy, hence the `Option Nat` arguments with `some 0` defaulting too.
Python converts `remaining` with `int(...)`, truncation toward zero;
the argument is positive whenever the pruned list is non-empty (every
surviving timestamp satisfies `now - ts < period`), so truncation is
`Int.floor` there.  The `[]` arm of the match is unreachable when the
effective limit is positive (Python would raise `IndexError` on
`self._requests[key][0]`). -/
def RateLimiter.is_allowed (rl : RateLimiter) (client_id : String)
    (limit period : Option Nat) (now : ℚ) : RateDecision :=
  let limit : Nat := match limit with
    | none => RATE_LIMIT_REQUESTS
    | some 0 => RATE_LIMIT_REQUESTS
    | some (n + 1) => n + 1
  let period : Nat := match period with
    | none => RATE_LIMIT_PERIOD
    | some 0 => RATE_LIMIT_PERIOD
    | some (n + 1) => n + 1
  let key := "rate:" ++ client_id
  let pruned := (lookupD rl._requests key []).filter
    (fun ts => now - ts < (period : ℚ))
  if pruned.length ≥ limit then
    let remaining : Int :=
      match pruned with
      | t :: _ => Int.floor ((period : ℚ) - (now - t))
      | [] => 0
    ⟨false, remaining, ⟨setAssoc rl._requests key pruned⟩⟩
  else
    ⟨true, 0, ⟨setAssoc rl._requests key (pruned ++ [now])⟩⟩

/-!
Forwarding engine: shallow embedding of `app/services/proxy.py`,
`ProxyForwarder.forward_request`.  The network is an oracle mapping the
attempt index to the outcome of that attempt; the engine-generated
request id (returned by `log_request`) and the
`datetime.utcnow().isoformat()` timestamp are passed in as strings.
Header construction (content type, `X-Request-ID`, `X-BBPS-Category`,
`X-Timestamp`, caller overrides) and query parameters do not influence
any value observed here and are elided from the attempt records, which
keep the target URL, the dispatched verb, and the JSON body handed to
the HTTP client.
-/

/-- Proxy configuration read from `settings` in `ProxyForwarder.__init__`:
`REQUEST_TIMEOUT`, `MAX_RETRIES`, `RETRY_DELAY` with environment defaults
30, 3 and 1.0. -/
structure ProxySettings where
  timeout : Nat
  max_retries : Nat
  retry_delay : ℚ
  deriving DecidableEq

/-- Default settings: `REQUEST_TIMEOUT=30`, `MAX_RETRIES=3`,
`RETRY_DELAY=1.0`. -/
def defaultProxySettings : ProxySettings := ⟨30, 3, 1⟩

/-- Body of a completed HTTP exchange, as seen through `response.json()`:
a JSON object, a parseable but non-object JSON document (for which the
subsequent string-key assignment `response_data["request_id"] = ...`
raises `TypeError`), or an unparseable body wrapped from
`response.text`. -/
inductive HttpBody where
  | jsonObj (o : JsonObj)
  | jsonOther (v : JsonValue)
  | unparseable (t : String)
  deriving DecidableEq

/-- Outcome of one dispatched attempt: a completed exchange with any
status code, an `httpx.TimeoutException`, an `httpx.ConnectError`, or
any other exception (each carrying its `str(e)`). -/
inductive Outcome where
  | completed (status_code : Nat) (body : HttpBody)
  | timeout (msg : String)
  | connectError (msg : String)
  | otherError (msg : String)

/-- Record of one network dispatch: target URL, upper-cased verb, and
the JSON body passed to the client (`json=payload` for POST/PUT, none
for GET/DELETE). -/
structure NetAttempt where
  url : String
  method : String
  body : Option JsonObj
  deriving DecidableEq

/-- How the attempt loop ended: an early `return` with a payload and
status, or fall-through past the loop with the last recorded error. -/
inductive LoopExit where
  | returned (payload : JsonObj) (status_code : Nat)
  | exhausted (last_error : Option String)
  deriving DecidableEq

/-- Observable result of `forward_request`: the returned payload and
status, the network dispatches performed, and the backoff sleeps in
order. -/
structure ForwardResult where
  payload : JsonObj
  status_code : Nat
  attempts : List NetAttempt
  sleeps : List ℚ
  deriving DecidableEq

/-- JSON body handed to the HTTP client for a given upper-cased verb. -/
def sentBody (methodU : String) (payload : Option JsonObj) : Option JsonObj :=
  if methodU = "POST" ∨ methodU = "PUT" then payload else none

/-- Field injection performed on every completed exchange: overwrite
`request_id` and `timestamp` with engine-generated values, then set
`success` to whether the status code lies in [200, 300). -/
def injectEnvelopeFields (rd : JsonObj) (request_id ts : String)
    (status_code : Nat) : JsonObj :=
  ((rd.set "request_id" (.str request_id)).set "timestamp" (.str ts)).set
    "success" (.bool (decide (200 ≤ status_code ∧ status_code < 300)))

/-- Synthetic payload for an unsupported HTTP verb. -/
def INVALID_METHOD_payload (method : String) : JsonObj :=
  .cons "success" (.bool false)
    (.cons "message" (.str ("Unsupported HTTP method: " ++ method))
      (.cons "error_code" (.str "INVALID_METHOD") .nil))

/-- Synthetic payload for a missing route configuration. -/
def CONFIG_ERROR_payload (category endpoint_key : String) : JsonObj :=
  .cons "success" (.bool false)
    (.cons "message" (.str ("No URL configured for category \x27" ++
      category ++ "\x27 endpoint \x27" ++ endpoint_key ++ "\x27"))
      (.cons "error_code" (.str "CONFIG_ERROR") .nil))

/-- Synthetic payload produced after the attempt loop exhausts:
`details` is `str(last_error)` when an error was recorded (exception
objects are always truthy) and `"Unknown error"` otherwise. -/
def CONNECTION_ERROR_payload (last_error : Option String)
    (request_id ts : String) : JsonObj :=
  .cons "success" (.bool false)
    (.cons "message" (.str "Failed to connect to BBPS backend")
      (.cons "error_code" (.str "CONNECTION_ERROR")
        (.cons "details"
          (.str (match last_error with | some m => m | none => "Unknown error"))
          (.cons "request_id" (.str request_id)
            (.cons "timestamp" (.str ts) .nil)))))

/-- The `for attempt in range(self.max_retries)` loop.  `fuel` is the
number of iterations left (`max_retries - attempt`); the verb check and
dispatch, the completed-exchange handling, the retry-on-transport-error
policy with exponential backoff `retry_delay * 2 ^ attempt` slept only
while `attempt < max_retries - 1`, and the `break` on any other
exception follow the source line by line.  A completed exchange whose
parsed JSON is not an object raises `TypeError` at the
`response_data["request_id"]` assignment, which the final generic
`except` clause turns into a `break`. -/
def attemptLoop (max_retries : Nat) (retry_delay : ℚ)
    (url request_id ts method : String) (payload : Option JsonObj)
    (oracle : Nat → Outcome) :
    Nat → Nat → Option String → List NetAttempt × List ℚ × LoopExit
  | _, 0, last_error => ([], [], .exhausted last_error)
  | attempt, fuel + 1, _ =>
      let methodU := strUpper method
      if methodU = "GET" ∨ methodU = "POST" ∨ methodU = "PUT" ∨
          methodU = "DELETE" then
        let att : NetAttempt := ⟨url, methodU, sentBody methodU payload⟩
        match oracle attempt with
        | .completed s body =>
            match body with
            | .jsonObj o =>
                ([att], [],
                  .returned (injectEnvelopeFields o request_id ts s) s)
            | .unparseable t =>
                ([att], [],
                  .returned (injectEnvelopeFields
                    (.cons "raw_response" (.str t) .nil) request_id ts s) s)
            | .jsonOther _ =>
                ([att], [], .exhausted (some "TypeError"))
        | .timeout m =>
            let rest := attemptLoop max_retries retry_delay url request_id ts
              method payload oracle (attempt + 1) fuel (some m)
            if attempt < max_retries - 1 then
              (att :: rest.1, retry_delay * 2 ^ attempt :: rest.2.1, rest.2.2)
            else
              (att :: rest.1, rest.2.1, rest.2.2)
        | .connectError m =>
            let rest := attemptLoop max_retries retry_delay url request_id ts
              method payload oracle (attempt + 1) fuel (some m)
            if attempt < max_retries - 1 then
              (att :: rest.1, retry_delay * 2 ^ attempt :: rest.2.1, rest.2.2)
            else
              (att :: rest.1, rest.2.1, rest.2.2)
        | .otherError m =>
            ([att], [], .exhausted (some m))
      else
        ([], [], .returned (INVALID_METHOD_payload method) 400)

/-- Embedding of `ProxyForwarder.forward_request`: resolve the target
URL (CONFIG_ERROR with status 500 and no network activity when it is
empty), run the attempt loop, and on fall-through return the synthetic
CONNECTION_ERROR payload with status 503. -/
def forward_request (cfg : BBPSConfig) (ps : ProxySettings)
    (request_id ts : String) (oracle : Nat → Outcome)
    (category endpoint_key method : String) (payload : Option JsonObj)
    (path_params : List (String × String)) : ForwardResult :=
  let target_url := cfg.get_full_url category endpoint_key path_params
  if target_url = "" then
    ⟨CONFIG_ERROR_payload category endpoint_key, 500, [], []⟩
  else
    match attemptLoop ps.max_retries ps.retry_delay target_url request_id
      ts method payload oracle 0 ps.max_retries none with
    | (atts, sleeps, .returned p s) => ⟨p, s, atts, sleeps⟩
    | (atts, sleeps, .exhausted le) =>
        ⟨CONNECTION_ERROR_payload le request_id ts, 503, atts, sleeps⟩

/-- Sample configuration with one category and one endpoint, used by the
concrete instances below. -/
def cfgOne : BBPSConfig :=
  ⟨[("billers", [("base_url", "https://b.example"), ("fetch", "/v1/all")])], []⟩

/-- The pruned timestamp list computed by `is_allowed`: stored entries
younger than `period` seconds before `now`. -/
def prunedList (rl : RateLimiter) (client_id : String) (p : Nat) (now : ℚ) :
    List ℚ :=
  (lookupD rl._requests ("rate:" ++ client_id) []).filter
    (fun ts => now - ts < (p : ℚ))

/-!
Claims about the forwarding engine.
-/

/-- The verb check of the dispatch: `method.upper()` is one of the four
supported verbs. -/
def validVerb (method : String) : Prop :=
  strUpper method = "GET" ∨ strUpper method = "POST" ∨
  strUpper method = "PUT" ∨ strUpper method = "DELETE"

instance (method : String) : Decidable (validVerb method) := by
  unfold validVerb
  infer_instance

/-- The one attempt record a single loop iteration dispatches. -/
def attRec (url method : String) (payload : Option JsonObj) : NetAttempt :=
  ⟨url, strUpper method, sentBody (strUpper method) payload⟩

/-- The parsed object a completed exchange contributes: the JSON object
itself, or the wrapped raw text.  (A non-object JSON body never reaches
this point; it raises before the injection.) -/
def parsedBody : HttpBody → JsonObj
  | .jsonObj o => o
  | .unparseable t => .cons "raw_response" (.str t) .nil
  | .jsonOther _ => .nil

/-- Transport-level failures: the two exception classes the loop
retries on. -/
def isTransportFailure : Outcome → Bool
  | .timeout _ => true
  | .connectError _ => true
  | _ => false

/-- The recorded error string of a failed attempt. -/
def failMsg : Outcome → Option String
  | .timeout m => some m
  | .connectError m => some m
  | .otherError m => some m
  | .completed _ _ => none

/-- The exit a completed exchange produces, by body shape: an early
return with the injected object (or wrapped raw text), or — for a
parseable non-object body — the `TypeError` break recorded as the last
error. -/
def completedExit (rid ts : String) (s : Nat) : HttpBody → LoopExit
  | .jsonObj o => .returned (injectEnvelopeFields o rid ts s) s
  | .unparseable t => .returned
      (injectEnvelopeFields (.cons "raw_response" (.str t) .nil) rid ts s) s
  | .jsonOther _ => .exhausted (some "TypeError")

/-- Sample configuration with a base URL but no endpoint templates. -/
def cfgBaseOnly : BBPSConfig := ⟨[("x", [("base_url", "https://b.example")])], []⟩

/-- The `last_error` value the loop ends with when every attempt fails:
the incoming value when no iteration ran, else the message of the last
attempt\x27s failure. -/
def exhaustMsg (oracle : Nat → Outcome) (mr fuel : Nat)
    (le : Option String) : Option String :=
  match fuel with
  | 0 => le
  | _ + 1 => failMsg (oracle (mr - 1))

/-!
Helper lemmas shared by the claim theorems.
-/

/-- Setting a key then reading it back yields the new value. -/
theorem JsonObj.get?_set_self : ∀ (o : JsonObj) (k : String) (v : JsonValue),
    (o.set k v).get? k = some v
  | .nil, k, v => by simp [JsonObj.set, JsonObj.get?]
  | .cons k' w rest, k, v => by
      by_cases h : k' = k
      · simp [JsonObj.set, h, JsonObj.get?]
      · simp [JsonObj.set, h, JsonObj.get?, get?_set_self rest k v]

/-- Setting one key leaves every other key unchanged. -/
theorem JsonObj.get?_set_ne : ∀ (o : JsonObj) (k k' : String) (v : JsonValue),
    k ≠ k' → (o.set k v).get? k' = o.get? k'
  | .nil, k, k', v, h => by simp [JsonObj.set, JsonObj.get?, h]
  | .cons k0 w rest, k, k', v, h => by
      by_cases h0 : k0 = k
      · subst h0
        simp [JsonObj.set, JsonObj.get?, h]
      · simp [JsonObj.set, h0, JsonObj.get?, get?_set_ne rest k k' v h]

/-- Characterisation of the entries kept by `filterKeys`. -/
theorem JsonObj.mem_entries_filterKeys :
    ∀ (o : JsonObj) (p : String → Bool) (k : String) (v : JsonValue),
    (k, v) ∈ (o.filterKeys p).entries ↔ (k, v) ∈ o.entries ∧ p k = true
  | .nil, p, k, v => by simp [JsonObj.filterKeys, JsonObj.entries]
  | .cons k' w rest, p, k, v => by
      have ih := mem_entries_filterKeys rest p k v
      by_cases h : p k'
      · simp only [JsonObj.filterKeys, h, if_true, JsonObj.entries,
          List.mem_cons, ih]
        constructor
        · rintro (h0 | ⟨h1, h2⟩)
          · exact ⟨Or.inl h0, by cases h0; simpa using h⟩
          · exact ⟨Or.inr h1, h2⟩
        · rintro ⟨h0 | h1, h2⟩
          · exact Or.inl h0
          · exact Or.inr ⟨h1, h2⟩
      · rw [Bool.not_eq_true] at h
        simp only [JsonObj.filterKeys, h, Bool.false_eq_true, if_false,
          JsonObj.entries, List.mem_cons, ih]
        constructor
        · rintro ⟨h1, h2⟩
          exact ⟨Or.inr h1, h2⟩
        · rintro ⟨h0 | h1, h2⟩
          · cases h0
            simp [h2] at h
          · exact ⟨h1, h2⟩

/-- An object is empty exactly when it is `nil`. -/
theorem JsonObj.isEmpty_iff (o : JsonObj) : o.isEmpty = true ↔ o = .nil := by
  cases o <;> simp [JsonObj.isEmpty]

example :
    BBPSConfig.get_full_url
      ⟨[("billers", [("base_url", "https://b.example"), ("fetch", "/v1/all")])], []⟩
      "billers" "fetch" [] = "https://b.example/v1/all" := by
  decide

example :
    normalize_response
      (.cons "data" (.obj (.cons "a" (.num 1) .nil)) .nil) 200 "T0" =
    ⟨.bool true, .str "Request processed successfully",
      .obj (.cons "a" (.num 1) .nil), .null, .str "T0", .null⟩ := by
  decide

example :
    (RateLimiter.is_allowed ⟨[]⟩ "c" (some 2) (some 10) 0).allowed = true := by
  decide

example :
    (forward_request cfgOne defaultProxySettings "rid" "T0"
      (fun _ => .completed 200 (.jsonObj .nil)) "billers" "fetch" "POST"
      (some .nil) []).status_code = 200 := by
  decide

example :
    (forward_request cfgOne defaultProxySettings "rid" "T0"
      (fun _ => .timeout "boom") "billers" "fetch" "POST"
      (some .nil) []).sleeps = [1, 2] := by
  have h : (forward_request cfgOne defaultProxySettings "rid" "T0"
      (fun _ => .timeout "boom") "billers" "fetch" "POST"
      (some .nil) []).sleeps = [1 * 2 ^ 0, 1 * 2 ^ 1] := rfl
  rw [h]
  norm_num

/-- When the message slot is falsy, `normMessage` yields one of the four
non-empty default strings. -/
theorem normMessage_default_nonempty (rd : JsonObj) (status_code : Nat)
    (h : (rd.getD "message" (.str "")).truthy = false) :
    ∃ m, normMessage rd status_code = .str m ∧ m ≠ "" := by
  simp only [normMessage, h, Bool.false_eq_true, if_false]
  split
  · exact ⟨"Request processed successfully", rfl, by decide⟩
  · split
    · exact ⟨"Failed to connect to BBPS backend", rfl, by decide⟩
    · split
      · exact ⟨"Configuration error", rfl, by decide⟩
      · exact ⟨"Request failed", rfl, by decide⟩

/-- Reading back the binding stored by `setAssoc`. -/
theorem lookupD_setAssoc_self :
    ∀ (l : List (String × List ℚ)) (k : String) (v : List ℚ),
    lookupD (setAssoc l k v) k [] = v
  | [], k, v => by simp [setAssoc, lookupD]
  | (k0, w) :: rest, k, v => by
      by_cases h : k0 = k
      · simp [setAssoc, h, lookupD]
      · simp [setAssoc, h, lookupD, lookupD_setAssoc_self rest k v]

/-- Definitional unfolding of `is_allowed` for explicitly positive limit
and period arguments (no defaulting applies). -/
theorem is_allowed_unfold (rl : RateLimiter) (client_id : String)
    (n q : Nat) (now : ℚ) :
    RateLimiter.is_allowed rl client_id (some (n + 1)) (some (q + 1)) now =
      (if (prunedList rl client_id (q + 1) now).length ≥ n + 1 then
        ⟨false,
          (match prunedList rl client_id (q + 1) now with
           | t :: _ => Int.floor (((q + 1 : Nat) : ℚ) - (now - t))
           | [] => 0),
          ⟨setAssoc rl._requests ("rate:" ++ client_id)
            (prunedList rl client_id (q + 1) now)⟩⟩
      else
        ⟨true, 0,
          ⟨setAssoc rl._requests ("rate:" ++ client_id)
            (prunedList rl client_id (q + 1) now ++ [now])⟩⟩) := rfl

/-- Reading the three injected fields back out of
`injectEnvelopeFields`. -/
theorem injectEnvelopeFields_get (rd : JsonObj) (rid ts : String) (s : Nat) :
    (injectEnvelopeFields rd rid ts s).get? "success"
      = some (.bool (decide (200 ≤ s ∧ s < 300))) ∧
    (injectEnvelopeFields rd rid ts s).get? "request_id"
      = some (.str rid) ∧
    (injectEnvelopeFields rd rid ts s).get? "timestamp"
      = some (.str ts) := by
  unfold injectEnvelopeFields
  refine ⟨JsonObj.get?_set_self _ _ _, ?_, ?_⟩
  · rw [JsonObj.get?_set_ne _ "success" "request_id" _ (by decide),
      JsonObj.get?_set_ne _ "timestamp" "request_id" _ (by decide),
      JsonObj.get?_set_self]
  · rw [JsonObj.get?_set_ne _ "success" "timestamp" _ (by decide),
      JsonObj.get?_set_self]

/-- One loop step on a completed exchange: a single dispatch, no sleep,
and the exit determined by the body shape. -/
theorem attemptLoop_completed (mr : Nat) (rdel : ℚ)
    (url rid ts method : String) (payload : Option JsonObj)
    (oracle : Nat → Outcome) (fuel attempt : Nat) (le : Option String)
    (s : Nat) (body : HttpBody) (hv : validVerb method)
    (ho : oracle attempt = .completed s body) :
    attemptLoop mr rdel url rid ts method payload oracle
      attempt (fuel + 1) le =
      ([attRec url method payload], [], completedExit rid ts s body) := by
  have hv' : strUpper method = "GET" ∨ strUpper method = "POST" ∨
      strUpper method = "PUT" ∨ strUpper method = "DELETE" := hv
  rw [attemptLoop, if_pos hv', ho]
  cases body <;> rfl

/-- One loop step on a timeout: record the attempt and the error, sleep
the backoff delay only when attempts remain, and continue. -/
theorem attemptLoop_timeout_step (mr : Nat) (rdel : ℚ)
    (url rid ts method : String) (payload : Option JsonObj)
    (oracle : Nat → Outcome) (fuel attempt : Nat) (le : Option String)
    (m : String) (hv : validVerb method)
    (ho : oracle attempt = .timeout m) :
    attemptLoop mr rdel url rid ts method payload oracle
      attempt (fuel + 1) le =
      (if attempt < mr - 1 then
        (attRec url method payload ::
          (attemptLoop mr rdel url rid ts method payload oracle
            (attempt + 1) fuel (some m)).1,
         rdel * 2 ^ attempt ::
          (attemptLoop mr rdel url rid ts method payload oracle
            (attempt + 1) fuel (some m)).2.1,
         (attemptLoop mr rdel url rid ts method payload oracle
            (attempt + 1) fuel (some m)).2.2)
      else
        (attRec url method payload ::
          (attemptLoop mr rdel url rid ts method payload oracle
            (attempt + 1) fuel (some m)).1,
         (attemptLoop mr rdel url rid ts method payload oracle
            (attempt + 1) fuel (some m)).2.1,
         (attemptLoop mr rdel url rid ts method payload oracle
            (attempt + 1) fuel (some m)).2.2)) := by
  have hv' : strUpper method = "GET" ∨ strUpper method = "POST" ∨
      strUpper method = "PUT" ∨ strUpper method = "DELETE" := hv
  rw [attemptLoop, if_pos hv', ho]
  rfl

/-- One loop step on a connection error: identical handling to the
timeout case. -/
theorem attemptLoop_connectError_step (mr : Nat) (rdel : ℚ)
    (url rid ts method : String) (payload : Option JsonObj)
    (oracle : Nat → Outcome) (fuel attempt : Nat) (le : Option String)
    (m : String) (hv : validVerb method)
    (ho : oracle attempt = .connectError m) :
    attemptLoop mr rdel url rid ts method payload oracle
      attempt (fuel + 1) le =
      (if attempt < mr - 1 then
        (attRec url method payload ::
          (attemptLoop mr rdel url rid ts method payload oracle
            (attempt + 1) fuel (some m)).1,
         rdel * 2 ^ attempt ::
          (attemptLoop mr rdel url rid ts method payload oracle
            (attempt + 1) fuel (some m)).2.1,
         (attemptLoop mr rdel url rid ts method payload oracle
            (attempt + 1) fuel (some m)).2.2)
      else
        (attRec url method payload ::
          (attemptLoop mr rdel url rid ts method payload oracle
            (attempt + 1) fuel (some m)).1,
         (attemptLoop mr rdel url rid ts method payload oracle
            (attempt + 1) fuel (some m)).2.1,
         (attemptLoop mr rdel url rid ts method payload oracle
            (attempt + 1) fuel (some m)).2.2)) := by
  have hv' : strUpper method = "GET" ∨ strUpper method = "POST" ∨
      strUpper method = "PUT" ∨ strUpper method = "DELETE" := hv
  rw [attemptLoop, if_pos hv', ho]
  rfl

/-- One loop step on any other exception: record and break. -/
theorem attemptLoop_otherError_step (mr : Nat) (rdel : ℚ)
    (url rid ts method : String) (payload : Option JsonObj)
    (oracle : Nat → Outcome) (fuel attempt : Nat) (le : Option String)
    (m : String) (hv : validVerb method)
    (ho : oracle attempt = .otherError m) :
    attemptLoop mr rdel url rid ts method payload oracle
      attempt (fuel + 1) le =
      ([attRec url method payload], [], .exhausted (some m)) := by
  have hv' : strUpper method = "GET" ∨ strUpper method = "POST" ∨
      strUpper method = "PUT" ∨ strUpper method = "DELETE" := hv
  rw [attemptLoop, if_pos hv', ho]
  rfl

/-- Every attempt record produced by the loop is the same dispatch
record: the resolved URL, the upper-cased verb, and the caller\x27s
payload for POST/PUT. -/
theorem attemptLoop_mem_attempts (mr : Nat) (rdel : ℚ)
    (url rid ts method : String) (payload : Option JsonObj)
    (oracle : Nat → Outcome) :
    ∀ (fuel attempt : Nat) (le : Option String) (a : NetAttempt),
    a ∈ (attemptLoop mr rdel url rid ts method payload oracle
      attempt fuel le).1 →
    a = attRec url method payload
  | 0, attempt, le, a => by
      intro h
      simp [attemptLoop] at h
  | fuel + 1, attempt, le, a => by
      intro h
      by_cases hv : validVerb method
      · cases ho : oracle attempt with
        | completed s b =>
            rw [attemptLoop_completed mr rdel url rid ts method payload
              oracle fuel attempt le s b hv ho] at h
            simpa using h
        | timeout m =>
            rw [attemptLoop_timeout_step mr rdel url rid ts method payload
              oracle fuel attempt le m hv ho] at h
            by_cases hb : attempt < mr - 1
            · rw [if_pos hb] at h
              rcases List.mem_cons.mp h with h0 | h0
              · exact h0
              · exact attemptLoop_mem_attempts mr rdel url rid ts method
                  payload oracle fuel (attempt + 1) (some m) a h0
            · rw [if_neg hb] at h
              rcases List.mem_cons.mp h with h0 | h0
              · exact h0
              · exact attemptLoop_mem_attempts mr rdel url rid ts method
                  payload oracle fuel (attempt + 1) (some m) a h0
        | connectError m =>
            rw [attemptLoop_connectError_step mr rdel url rid ts method
              payload oracle fuel attempt le m hv ho] at h
            by_cases hb : attempt < mr - 1
            · rw [if_pos hb] at h
              rcases List.mem_cons.mp h with h0 | h0
              · exact h0
              · exact attemptLoop_mem_attempts mr rdel url rid ts method
                  payload oracle fuel (attempt + 1) (some m) a h0
            · rw [if_neg hb] at h
              rcases List.mem_cons.mp h with h0 | h0
              · exact h0
              · exact attemptLoop_mem_attempts mr rdel url rid ts method
                  payload oracle fuel (attempt + 1) (some m) a h0
        | otherError m =>
            rw [attemptLoop_otherError_step mr rdel url rid ts method
              payload oracle fuel attempt le m hv ho] at h
            simpa using h
      · have hv' : ¬ (strUpper method = "GET" ∨ strUpper method = "POST" ∨
            strUpper method = "PUT" ∨ strUpper method = "DELETE") := hv
        rw [attemptLoop, if_neg hv'] at h
        simp at h

/-- The attempts recorded by `forward_request` are those of the loop
(both exit shapes forward them unchanged). -/
theorem forward_request_attempts_eq (cfg : BBPSConfig) (ps : ProxySettings)
    (rid ts : String) (oracle : Nat → Outcome)
    (category endpoint_key method : String) (payload : Option JsonObj)
    (path_params : List (String × String))
    (hurl : cfg.get_full_url category endpoint_key path_params ≠ "") :
    (forward_request cfg ps rid ts oracle category endpoint_key method
      payload path_params).attempts =
    (attemptLoop ps.max_retries ps.retry_delay
      (cfg.get_full_url category endpoint_key path_params) rid ts method
      payload oracle 0 ps.max_retries none).1 := by
  unfold forward_request
  rw [if_neg hurl]
  rcases h2 : attemptLoop ps.max_retries ps.retry_delay
      (cfg.get_full_url category endpoint_key path_params) rid ts method
      payload oracle 0 ps.max_retries none with ⟨atts, sl, ex⟩
  cases ex <;> rfl

/-- When every remaining attempt fails at transport level, the loop
dispatches once per remaining iteration, sleeps
`retry_delay * 2 ^ attempt` after every failure except the one at the
final attempt index, and falls through with the last failure message
recorded. -/
theorem attemptLoop_allFail (mr : Nat) (rdel : ℚ)
    (url rid ts method : String) (payload : Option JsonObj)
    (oracle : Nat → Outcome) (hv : validVerb method) :
    ∀ (fuel attempt : Nat) (le : Option String),
    attempt + fuel = mr →
    (∀ i, i < fuel → isTransportFailure (oracle (attempt + i)) = true) →
    attemptLoop mr rdel url rid ts method payload oracle attempt fuel le =
      (List.replicate fuel (attRec url method payload),
       (List.range' attempt (fuel - 1)).map (fun i => rdel * 2 ^ i),
       .exhausted (exhaustMsg oracle mr fuel le))
  | 0, attempt, le => by
      intro hsum hfail
      simp [attemptLoop, exhaustMsg, List.range']
  | fuel + 1, attempt, le => by
      intro hsum hfail
      have h0 : isTransportFailure (oracle attempt) = true := by
        simpa using hfail 0 (by omega)
      have ihfail : ∀ m : String, ∀ i, i < fuel →
          isTransportFailure (oracle (attempt + 1 + i)) = true := by
        intro m i hi
        have h1 := hfail (i + 1) (by omega)
        have heq : attempt + (i + 1) = attempt + 1 + i := by omega
        rw [heq] at h1
        exact h1
      cases ho : oracle attempt with
      | completed s b =>
          rw [ho] at h0
          simp [isTransportFailure] at h0
      | otherError m =>
          rw [ho] at h0
          simp [isTransportFailure] at h0
      | timeout m =>
          rw [attemptLoop_timeout_step mr rdel url rid ts method payload
            oracle fuel attempt le m hv ho]
          have ih := attemptLoop_allFail mr rdel url rid ts method payload
            oracle hv fuel (attempt + 1) (some m) (by omega) (ihfail m)
          by_cases hb : attempt < mr - 1
          · rw [if_pos hb, ih]
            obtain ⟨f2, rfl⟩ : ∃ f2, fuel = f2 + 1 := ⟨fuel - 1, by omega⟩
            simp [List.replicate_succ, List.range'_succ, exhaustMsg]
          · rw [if_neg hb, ih]
            have hf0 : fuel = 0 := by omega
            subst hf0
            have hmr1 : mr - 1 = attempt := by omega
            simp [List.replicate, List.range', exhaustMsg, hmr1, ho, failMsg]
      | connectError m =>
          rw [attemptLoop_connectError_step mr rdel url rid ts method payload
            oracle fuel attempt le m hv ho]
          have ih := attemptLoop_allFail mr rdel url rid ts method payload
            oracle hv fuel (attempt + 1) (some m) (by omega) (ihfail m)
          by_cases hb : attempt < mr - 1
          · rw [if_pos hb, ih]
            obtain ⟨f2, rfl⟩ : ∃ f2, fuel = f2 + 1 := ⟨fuel - 1, by omega⟩
            simp [List.replicate_succ, List.range'_succ, exhaustMsg]
          · rw [if_neg hb, ih]
            have hf0 : fuel = 0 := by omega
            subst hf0
            have hmr1 : mr - 1 = attempt := by omega
            simp [List.replicate, List.range', exhaustMsg, hmr1, ho, failMsg]

/-!
Claim C4.  The claim states that for every raw payload and status,
`normalize_response` returns (never raises) an envelope with `success`,
`message` and `timestamp` populated and `message` a non-empty string.
As stated this fails: the raw values flow into the pydantic v2
`BBPSResponse(...)` constructor without prior type checks, and the
constructor rejects ill-typed values — a raw payload carrying an
explicit `"timestamp": null` makes the constructor raise a
`ValidationError` instead of returning an envelope.  The claim holds
once every raw value the constructor can see is type-conformant:
`success` a boolean, `message` and `timestamp` strings, `request_id`
null or a string, `error_code` and `details` strings whenever truthy,
and `errors`, whenever it is a JSON list, a list of string-valued
objects.
-/

/-- Claim C4, counterexample: the raw payload `\x7b"timestamp": null\x7d`
hands the constructor an explicit null for the `str` field `timestamp`,
which pydantic rejects: the full `normalize_response` raises instead of
returning an envelope, contradicting "returns (never raises) ... with
timestamp populated" as stated. -/
theorem C4_counterexample :
    normalize_response_checked (.cons "timestamp" .null .nil) 200
      "2024-01-01T00:00:00" = none := by
  decide

/-- Helper for claim C4: with `success`, `message` and `timestamp`
type-conformant, the computed envelope values have `success` a boolean,
`message` a non-empty string and `timestamp` a string. -/
theorem normalize_fields_of_typed (rd : JsonObj) (status_code : Nat)
    (now : String)
    (hs : ∀ v, rd.get? "success" = some v → ∃ b, v = JsonValue.bool b)
    (hm : ∀ v, rd.get? "message" = some v → ∃ s, v = JsonValue.str s)
    (ht : ∀ v, rd.get? "timestamp" = some v → ∃ s, v = JsonValue.str s) :
    (∃ b, (normalize_response rd status_code now).success = .bool b) ∧
    (∃ m, (normalize_response rd status_code now).message = .str m ∧ m ≠ "") ∧
    (∃ t, (normalize_response rd status_code now).timestamp = .str t) := by
  refine ⟨?_, ?_, ?_⟩
  · simp only [normalize_response, normSuccess, JsonObj.getD]
    cases h : rd.get? "success" with
    | none => exact ⟨_, rfl⟩
    | some v =>
        obtain ⟨b, rfl⟩ := hs v h
        exact ⟨b, rfl⟩
  · by_cases htr : (rd.getD "message" (.str "")).truthy
    · have hstr : ∃ s, rd.getD "message" (.str "") = .str s := by
        cases h : rd.get? "message" with
        | none => exact ⟨"", by simp [JsonObj.getD, h]⟩
        | some v =>
            obtain ⟨s, rfl⟩ := hm v h
            exact ⟨s, by simp [JsonObj.getD, h]⟩
      obtain ⟨s, hsEq⟩ := hstr
      refine ⟨s, ?_, ?_⟩
      · have htr' := htr
        rw [hsEq] at htr'
        simp only [normalize_response, normMessage, hsEq, htr', if_true]
      · rw [hsEq] at htr
        simpa [JsonValue.truthy] using htr
    · rw [Bool.not_eq_true] at htr
      simpa only [normalize_response] using
        normMessage_default_nonempty rd status_code htr
  · simp only [normalize_response, JsonObj.getD]
    cases h : rd.get? "timestamp" with
    | none => exact ⟨now, rfl⟩
    | some v =>
        obtain ⟨t, rfl⟩ := ht v h
        exact ⟨t, rfl⟩

/-- Helper for claim C4: a truthy `getD key null` value comes from a
present, truthy binding. -/
theorem getD_null_truthy_get? (rd : JsonObj) (key : String)
    (h : (rd.getD key .null).truthy = true) :
    ∃ v, rd.get? key = some v ∧ v.truthy = true := by
  cases hg : rd.get? key with
  | none =>
      rw [JsonObj.getD, hg] at h
      simp [JsonValue.truthy] at h
  | some v =>
      refine ⟨v, rfl, ?_⟩
      rw [JsonObj.getD, hg] at h
      simpa using h

/-- Helper for claim C4: the synthesized `error_details` entry passes
the `List[Dict[str, str]]` validation whenever the raw `message` is a
string when present and `error_code`/`details` are strings whenever
truthy. -/
theorem error_details_valid (rd : JsonObj) (status_code : Nat)
    (hm : ∀ v, rd.get? "message" = some v → ∃ s, v = JsonValue.str s)
    (hec : ∀ v, rd.get? "error_code" = some v → v.truthy = true →
      ∃ s, v = JsonValue.str s)
    (hdet : ∀ v, rd.get? "details" = some v → v.truthy = true →
      ∃ s, v = JsonValue.str s) :
    errorsFieldOk (error_details rd status_code) = true := by
  unfold error_details
  by_cases h1 : (rd.getD "error_code" .null).truthy
  · rw [if_pos h1]
    obtain ⟨v, hgv, hvt⟩ := getD_null_truthy_get? rd "error_code" h1
    obtain ⟨sc, rfl⟩ := hec v hgv hvt
    have hcode : rd.getD "error_code" (.str "UNKNOWN") = .str sc := by
      simp [JsonObj.getD, hgv]
    have hmsg : ∃ sm, (let d := rd.getD "details" .null
        if d.truthy then d
        else rd.getD "message" (.str "An error occurred")) =
        JsonValue.str sm := by
      by_cases h2 : (rd.getD "details" .null).truthy
      · obtain ⟨w, hgw, hwt⟩ := getD_null_truthy_get? rd "details" h2
        obtain ⟨sd, rfl⟩ := hdet w hgw hwt
        have hd : rd.getD "details" .null = .str sd := by
          simp [JsonObj.getD, hgw]
        refine ⟨sd, ?_⟩
        show (if (rd.getD "details" JsonValue.null).truthy
            then rd.getD "details" JsonValue.null
            else rd.getD "message" (JsonValue.str "An error occurred")) =
          JsonValue.str sd
        rw [if_pos h2, hd]
      · cases hgm : rd.get? "message" with
        | none =>
            refine ⟨"An error occurred", ?_⟩
            show (if (rd.getD "details" JsonValue.null).truthy
                then rd.getD "details" JsonValue.null
                else rd.getD "message" (JsonValue.str "An error occurred")) =
              JsonValue.str "An error occurred"
            rw [if_neg h2]
            simp [JsonObj.getD, hgm]
        | some w =>
            obtain ⟨sm, rfl⟩ := hm w hgm
            refine ⟨sm, ?_⟩
            show (if (rd.getD "details" JsonValue.null).truthy
                then rd.getD "details" JsonValue.null
                else rd.getD "message" (JsonValue.str "An error occurred")) =
              JsonValue.str sm
            rw [if_neg h2]
            simp [JsonObj.getD, hgm]
    obtain ⟨sm, hsm⟩ := hmsg
    rw [hcode, hsm]
    simp [errorsFieldOk, arrAllStrObj, objValuesAllStr, isStrValue]
  · rw [if_neg h1]
    by_cases h2 : (rd.getD "message" .null).truthy
    · rw [if_pos h2]
      obtain ⟨w, hgw, hwt⟩ := getD_null_truthy_get? rd "message" h2
      obtain ⟨sm, rfl⟩ := hm w hgw
      have hv : rd.getD "message" (.str "An error occurred") = .str sm := by
        simp [JsonObj.getD, hgw]
      rw [hv]
      simp [errorsFieldOk, arrAllStrObj, objValuesAllStr, isStrValue]
    · rw [if_neg h2]
      simp [errorsFieldOk, arrAllStrObj, objValuesAllStr, isStrValue]

/-- Helper for claim C4: the computed `errors` value passes the
`Optional[List[Dict[str, str]]]` validation. -/
theorem normErrors_valid (rd : JsonObj) (status_code : Nat)
    (hm : ∀ v, rd.get? "message" = some v → ∃ s, v = JsonValue.str s)
    (hec : ∀ v, rd.get? "error_code" = some v → v.truthy = true →
      ∃ s, v = JsonValue.str s)
    (hdet : ∀ v, rd.get? "details" = some v → v.truthy = true →
      ∃ s, v = JsonValue.str s)
    (herr : ∀ v, rd.get? "errors" = some v → ∀ xs, v = JsonValue.arr xs →
      arrAllStrObj xs = true) :
    errorsFieldOk (normErrors rd status_code) = true := by
  unfold normErrors
  by_cases hsucc : (normSuccess rd status_code).truthy
  · simp [hsucc, errorsFieldOk]
  · rw [Bool.not_eq_true] at hsucc
    simp only [hsucc, Bool.not_false, if_true]
    cases hge : rd.get? "errors" with
    | none =>
        have hgd : rd.getD "errors" .null = .null := by
          simp [JsonObj.getD, hge]
        rw [hgd]
        exact error_details_valid rd status_code hm hec hdet
    | some v =>
        have hgd : rd.getD "errors" .null = v := by
          simp [JsonObj.getD, hge]
        rw [hgd]
        cases v with
        | null => exact error_details_valid rd status_code hm hec hdet
        | bool b => exact error_details_valid rd status_code hm hec hdet
        | num n => exact error_details_valid rd status_code hm hec hdet
        | str s => exact error_details_valid rd status_code hm hec hdet
        | obj o => exact error_details_valid rd status_code hm hec hdet
        | arr xs =>
            cases xs with
            | nil => exact error_details_valid rd status_code hm hec hdet
            | cons e rest =>
                have := herr (.arr (.cons e rest)) hge (.cons e rest) rfl
                simpa [errorsFieldOk] using this

/-- Claim C4 (amended): for every raw payload whose relevant values are
type-conformant — `success` a boolean when present, `message` and
`timestamp` strings when present, `request_id` null or a string when
present, `error_code` and `details` strings whenever truthy, and
`errors`, whenever its value is a JSON list, a list of string-valued
objects — and for every HTTP status, the full `normalize_response`
returns (does not raise): the pydantic constructor accepts the six
computed values, and the envelope has `success` a boolean, `message` a
non-empty string and `timestamp` a string, while `data`, `errors` and
`request_id` may be null. -/
theorem C4_amended_wellformed (rd : JsonObj) (status_code : Nat) (now : String)
    (hs : ∀ v, rd.get? "success" = some v → ∃ b, v = JsonValue.bool b)
    (hm : ∀ v, rd.get? "message" = some v → ∃ s, v = JsonValue.str s)
    (ht : ∀ v, rd.get? "timestamp" = some v → ∃ s, v = JsonValue.str s)
    (hrid : ∀ v, rd.get? "request_id" = some v → isOptStrValue v = true)
    (hec : ∀ v, rd.get? "error_code" = some v → v.truthy = true →
      ∃ s, v = JsonValue.str s)
    (hdet : ∀ v, rd.get? "details" = some v → v.truthy = true →
      ∃ s, v = JsonValue.str s)
    (herr : ∀ v, rd.get? "errors" = some v → ∀ xs, v = JsonValue.arr xs →
      arrAllStrObj xs = true) :
    normalize_response_checked rd status_code now
      = some (normalize_response rd status_code now) ∧
    (∃ b, (normalize_response rd status_code now).success = .bool b) ∧
    (∃ m, (normalize_response rd status_code now).message = .str m ∧ m ≠ "") ∧
    (∃ t, (normalize_response rd status_code now).timestamp = .str t) := by
  obtain ⟨⟨b, hb⟩, ⟨m, hm1, hm2⟩, ⟨t, ht1⟩⟩ :=
    normalize_fields_of_typed rd status_code now hs hm ht
  have hridv : isOptStrValue (normalize_response rd status_code now).request_id
      = true := by
    simp only [normalize_response]
    cases hg : rd.get? "request_id" with
    | none => simp [JsonObj.getD, hg, isOptStrValue]
    | some v =>
        have := hrid v hg
        simp [JsonObj.getD, hg, this]
  have herrv : errorsFieldOk (normalize_response rd status_code now).errors
      = true := by
    simp only [normalize_response]
    exact normErrors_valid rd status_code hm hec hdet herr
  have hcheck : pydCheck (normalize_response rd status_code now) = true := by
    unfold pydCheck
    rw [hb, hm1, ht1]
    simp [isStrValue, hridv, herrv]
  refine ⟨?_, ⟨b, hb⟩, ⟨m, hm1, hm2⟩, ⟨t, ht1⟩⟩
  simp [normalize_response_checked, hcheck]

/-- Claim C4, witness: `C4_amended_wellformed` applied to the empty raw
payload at status 200: the constructor accepts, and the resulting
envelope has `data`, `errors` and `request_id` null. -/
theorem C4_witness :
    normalize_response_checked .nil 200 "T0"
      = some (normalize_response .nil 200 "T0") ∧
    (∃ b, (normalize_response .nil 200 "T0").success = .bool b) ∧
    (∃ m, (normalize_response .nil 200 "T0").message = .str m ∧ m ≠ "") ∧
    (∃ t, (normalize_response .nil 200 "T0").timestamp = .str t) :=
  C4_amended_wellformed .nil 200 "T0"
    (fun v h => by simp [JsonObj.get?] at h)
    (fun v h => by simp [JsonObj.get?] at h)
    (fun v h => by simp [JsonObj.get?] at h)
    (fun v h => by simp [JsonObj.get?] at h)
    (fun v h _ => by simp [JsonObj.get?] at h)
    (fun v h _ => by simp [JsonObj.get?] at h)
    (fun v h _ _ => by simp [JsonObj.get?] at h)

/-!
Claim C5: the `data` slot of the envelope.
-/

/-- Claim C5: for every raw payload, an explicit `data` key is used
unmodified (including null); otherwise the residual object of all keys
outside the reserved set (`success, message, request_id, timestamp,
errors, error_code, details`) is used, and `data` is null exactly when
that residual object is empty. -/
theorem C5_data_extraction (rd : JsonObj) (status_code : Nat) (now : String) :
    (∀ v, rd.get? "data" = some v →
      (normalize_response rd status_code now).data = v) ∧
    (rd.get? "data" = none →
      ((normalize_response rd status_code now).data =
        (if (rd.filterKeys (fun k => !(excluded_keys.contains k))).isEmpty
         then JsonValue.null
         else .obj (rd.filterKeys (fun k => !(excluded_keys.contains k)))) ∧
       ((normalize_response rd status_code now).data = JsonValue.null ↔
        rd.filterKeys (fun k => !(excluded_keys.contains k)) = .nil))) := by
  constructor
  · intro v h
    simp [normalize_response, normData, JsonObj.hasKey, JsonObj.getD, h]
  · intro h
    have hd : (normalize_response rd status_code now).data =
        (if (rd.filterKeys (fun k => !(excluded_keys.contains k))).isEmpty
         then JsonValue.null
         else .obj (rd.filterKeys (fun k => !(excluded_keys.contains k)))) := by
      simp [normalize_response, normData, JsonObj.hasKey, h]
    refine ⟨hd, ?_⟩
    rw [hd]
    cases hres : rd.filterKeys (fun k => !(excluded_keys.contains k)) with
    | nil => simp [JsonObj.isEmpty]
    | cons k v rest => simp [JsonObj.isEmpty]

/-- Claim C5, witness: property P5 of the specification, derived from
`C5_data_extraction`: a payload with only non-reserved keys and no
explicit `data` key has all of them collected into `data`. -/
theorem C5_witness :
    (normalize_response
      (.cons "billAmount" (.num 120) (.cons "dueDate" (.str "2024-01-01") .nil))
      200 "T0").data =
    JsonValue.obj
      (.cons "billAmount" (.num 120)
        (.cons "dueDate" (.str "2024-01-01") .nil)) := by
  have h := (C5_data_extraction
    (.cons "billAmount" (.num 120) (.cons "dueDate" (.str "2024-01-01") .nil))
    200 "T0").2 (by decide)
  rw [h.1]
  decide

/-!
Claim C6: the `success` and `message` slots of the envelope.
-/

/-- Claim C6: `success` is the raw payload's `success` value when the
key is present, else the status test `200 <= status < 300`; `message` is
the raw message when truthy, else the first matching default in order:
the success message when the computed `success` is truthy, then the
CONNECTION_ERROR and CONFIG_ERROR defaults keyed on `error_code`, then
"Request failed". -/
theorem C6_success_message (rd : JsonObj) (status_code : Nat) (now : String) :
    (∀ v, rd.get? "success" = some v →
      (normalize_response rd status_code now).success = v) ∧
    (rd.get? "success" = none →
      (normalize_response rd status_code now).success =
        .bool (decide (200 ≤ status_code ∧ status_code < 300))) ∧
    ((rd.getD "message" (.str "")).truthy = true →
      (normalize_response rd status_code now).message =
        rd.getD "message" (.str "")) ∧
    ((rd.getD "message" (.str "")).truthy = false →
      ((normSuccess rd status_code).truthy = true →
        (normalize_response rd status_code now).message =
          .str "Request processed successfully") ∧
      ((normSuccess rd status_code).truthy = false →
        ((rd.getD "error_code" .null).isStr "CONNECTION_ERROR" = true →
          (normalize_response rd status_code now).message =
            .str "Failed to connect to BBPS backend") ∧
        ((rd.getD "error_code" .null).isStr "CONNECTION_ERROR" = false →
          ((rd.getD "error_code" .null).isStr "CONFIG_ERROR" = true →
            (normalize_response rd status_code now).message =
              .str "Configuration error") ∧
          ((rd.getD "error_code" .null).isStr "CONFIG_ERROR" = false →
            (normalize_response rd status_code now).message =
              .str "Request failed")))) := by
  refine ⟨?_, ?_, ?_, ?_⟩
  · intro v h
    simp [normalize_response, normSuccess, JsonObj.getD, h]
  · intro h
    simp [normalize_response, normSuccess, JsonObj.getD, h]
  · intro h
    simp [normalize_response, normMessage, h]
  · intro h
    refine ⟨?_, ?_⟩
    · intro h1
      simp [normalize_response, normMessage, h, h1]
    · intro h1
      refine ⟨?_, ?_⟩
      · intro h2
        simp [normalize_response, normMessage, h, h1, h2]
      · intro h2
        refine ⟨?_, ?_⟩
        · intro h3
          simp [normalize_response, normMessage, h, h1, h2, h3]
        · intro h3
          simp [normalize_response, normMessage, h, h1, h2, h3]

/-- Claim C6, witness: concrete application of `C6_success_message` to
the CONNECTION_ERROR payload shape at status 503: success falls back to
the status test (false) and the message defaults to the connection
failure text. -/
theorem C6_witness :
    (normalize_response (.cons "error_code" (.str "CONNECTION_ERROR") .nil)
      503 "T0").success = .bool false ∧
    (normalize_response (.cons "error_code" (.str "CONNECTION_ERROR") .nil)
      503 "T0").message = .str "Failed to connect to BBPS backend" := by
  have h := C6_success_message
    (.cons "error_code" (.str "CONNECTION_ERROR") .nil) 503 "T0"
  constructor
  · have := h.2.1 (by decide)
    rw [this]
    decide
  · have := (((h.2.2.2 (by decide)).2 (by decide)).1 (by decide))
    rw [this]

/-!
Claims C7 and C9: the rate limiter.
-/

/-- Claim C7: each admission check first prunes the stored timestamps to
those younger than `period` seconds before `now`; if at least `limit`
remain, the check rejects with
`retry_after = int(period - (now - oldest_remaining))` (the `int(...)`
conversion of the source is `Int.floor`, the argument being positive)
and stores the pruned list; otherwise it admits with `retry_after = 0`
and stores the pruned list with `now` appended. -/
theorem C7_rate_limiter (rl : RateLimiter) (client_id : String) (l p : Nat)
    (hl : 0 < l) (hp : 0 < p) (now : ℚ) :
    ((prunedList rl client_id p now).length ≥ l →
      RateLimiter.is_allowed rl client_id (some l) (some p) now =
        ⟨false,
         Int.floor ((p : ℚ) - (now - (prunedList rl client_id p now).headD 0)),
         ⟨setAssoc rl._requests ("rate:" ++ client_id)
           (prunedList rl client_id p now)⟩⟩) ∧
    ((prunedList rl client_id p now).length < l →
      RateLimiter.is_allowed rl client_id (some l) (some p) now =
        ⟨true, 0,
         ⟨setAssoc rl._requests ("rate:" ++ client_id)
           (prunedList rl client_id p now ++ [now])⟩⟩) := by
  obtain ⟨n, rfl⟩ : ∃ n, l = n + 1 := ⟨l - 1, by omega⟩
  obtain ⟨q, rfl⟩ : ∃ q, p = q + 1 := ⟨p - 1, by omega⟩
  constructor
  · intro hge
    rw [is_allowed_unfold, if_pos hge]
    cases hpr : prunedList rl client_id (q + 1) now with
    | nil =>
        rw [hpr] at hge
        simp at hge
    | cons t rest => simp
  · intro hlt
    rw [is_allowed_unfold, if_neg (by omega : ¬ _ ≥ _)]

/-- Claim C7, witness: property P6 of the specification via
`C7_rate_limiter`.  With limit 2 and period 10, calls at times 0, 1/2
and 1 for the same client are admitted, admitted, rejected, and the
rejection reports `retry_after = 9 > 0`. -/
theorem C7_witness :
    RateLimiter.is_allowed ⟨[]⟩ "c" (some 2) (some 10) 0 =
      ⟨true, 0, ⟨[("rate:c", [0])]⟩⟩ ∧
    RateLimiter.is_allowed ⟨[("rate:c", [0])]⟩ "c" (some 2) (some 10) (1/2) =
      ⟨true, 0, ⟨[("rate:c", [0, 1/2])]⟩⟩ ∧
    (RateLimiter.is_allowed ⟨[("rate:c", [0, 1/2])]⟩ "c" (some 2) (some 10) 1).allowed
      = false ∧
    (RateLimiter.is_allowed ⟨[("rate:c", [0, 1/2])]⟩ "c" (some 2) (some 10) 1).retry_after
      = 9 ∧
    (RateLimiter.is_allowed ⟨[("rate:c", [0, 1/2])]⟩ "c" (some 2) (some 10) 1).retry_after
      > 0 := by
  have key : ("rate:" ++ "c") = "rate:c" := by decide
  have h3 := (C7_rate_limiter ⟨[("rate:c", [0, 1/2])]⟩ "c" 2 10
    (by norm_num) (by norm_num) 1).1
    (by norm_num [prunedList, lookupD, List.filter_cons, key])
  have hpr : prunedList ⟨[("rate:c", [0, 1/2])]⟩ "c" 10 1 = [0, 1/2] := by
    norm_num [prunedList, lookupD, List.filter_cons, key]
  rw [hpr] at h3
  refine ⟨?_, ?_, ?_, ?_, ?_⟩
  · norm_num [RateLimiter.is_allowed, lookupD, setAssoc, List.filter_cons, key]
  · norm_num [RateLimiter.is_allowed, lookupD, setAssoc, List.filter_cons, key]
  · rw [h3]
  · rw [h3]
    norm_num
  · rw [h3]
    norm_num

/-- Claim C9: a rejected check stores exactly the pruned list — the
rejected request's own timestamp is not appended, so rejections consume
no quota and cannot extend the client's lockout window. -/
theorem C9_reject_no_consume (rl : RateLimiter) (client_id : String)
    (l p : Nat) (hl : 0 < l) (hp : 0 < p) (now : ℚ)
    (hrej : (RateLimiter.is_allowed rl client_id (some l) (some p) now).allowed
      = false) :
    (RateLimiter.is_allowed rl client_id (some l) (some p) now).state._requests
      = setAssoc rl._requests ("rate:" ++ client_id)
          (prunedList rl client_id p now) ∧
    lookupD
      (RateLimiter.is_allowed rl client_id (some l) (some p) now).state._requests
      ("rate:" ++ client_id) []
      = prunedList rl client_id p now := by
  obtain ⟨n, rfl⟩ : ∃ n, l = n + 1 := ⟨l - 1, by omega⟩
  obtain ⟨q, rfl⟩ : ∃ q, p = q + 1 := ⟨p - 1, by omega⟩
  by_cases hge : (prunedList rl client_id (q + 1) now).length ≥ n + 1
  · rw [is_allowed_unfold, if_pos hge]
    exact ⟨rfl, lookupD_setAssoc_self _ _ _⟩
  · rw [is_allowed_unfold, if_neg hge] at hrej
    simp at hrej

/-- Claim C9, witness: the rejected third call of the P6 scenario leaves
the stored list exactly as pruned, without the rejected call's
timestamp. -/
theorem C9_witness :
    (RateLimiter.is_allowed ⟨[("rate:c", [0, 1/2])]⟩ "c" (some 2) (some 10) 1).state._requests
      = [("rate:c", [0, 1/2])] := by
  have key : ("rate:" ++ "c") = "rate:c" := by decide
  have h := C9_reject_no_consume ⟨[("rate:c", [0, 1/2])]⟩ "c" 2 10
    (by norm_num) (by norm_num) 1
    (by norm_num [RateLimiter.is_allowed, lookupD, List.filter_cons, key])
  rw [h.1]
  norm_num [prunedList, lookupD, setAssoc, List.filter_cons, key]

/-!
Claim C1.  The claim states that whenever no base URL or no endpoint
template is configured for a (category, endpoint_key) pair,
`forward_request` fails terminally with CONFIG_ERROR and status 500 and
no network activity.  The source only takes the CONFIG_ERROR branch when
the resolved full URL — the concatenation of base URL and substituted
template — is the empty string, that is, when both pieces are missing.
With a configured base URL and a missing endpoint template the
concatenation is the non-empty base URL and the request is dispatched
to it.
-/

/-- Claim C1, counterexample: for category `x` the endpoint `y` has no
configured template, yet `forward_request` does not return the claimed
CONFIG_ERROR/500 with zero attempts — it dispatches one network call to
the bare base URL and returns the backend status 200. -/
theorem C1_counterexample :
    cfgBaseOnly.get_endpoint_template "x" "y" = "" ∧
    (forward_request cfgBaseOnly defaultProxySettings "rid" "T0"
      (fun _ => .completed 200 (.jsonObj .nil)) "x" "y" "POST" none
      []).status_code = 200 ∧
    (forward_request cfgBaseOnly defaultProxySettings "rid" "T0"
      (fun _ => .completed 200 (.jsonObj .nil)) "x" "y" "POST" none
      []).attempts =
      [⟨"https://b.example", "POST", none⟩] ∧
    (forward_request cfgBaseOnly defaultProxySettings "rid" "T0"
      (fun _ => .completed 200 (.jsonObj .nil)) "x" "y" "POST" none
      []).payload.getD "error_code" .null ≠ .str "CONFIG_ERROR" := by
  refine ⟨rfl, rfl, rfl, ?_⟩
  decide

/-- Claim C1 (amended): whenever the resolved full URL is empty — no
base URL (after environment override) and no endpoint template, so the
concatenation `get_full_url` returns `""` — `forward_request` returns
the synthetic CONFIG_ERROR payload (`success=false`,
`error_code="CONFIG_ERROR"`) with HTTP status 500, performs zero network
attempts and no backoff sleeps: the condition is terminal. -/
theorem C1_amended_config_error (cfg : BBPSConfig) (ps : ProxySettings)
    (rid ts : String) (oracle : Nat → Outcome)
    (category endpoint_key method : String) (payload : Option JsonObj)
    (path_params : List (String × String))
    (h : cfg.get_full_url category endpoint_key path_params = "") :
    forward_request cfg ps rid ts oracle category endpoint_key method
      payload path_params =
      ⟨CONFIG_ERROR_payload category endpoint_key, 500, [], []⟩ := by
  unfold forward_request
  rw [if_pos h]

/-- Claim C1, witness: `C1_amended_config_error` applied to a fully
unconfigured pair. -/
theorem C1_witness :
    forward_request ⟨[], []⟩ defaultProxySettings "rid" "T0"
      (fun _ => .completed 200 (.jsonObj .nil)) "x" "y" "POST" none [] =
      ⟨CONFIG_ERROR_payload "x" "y", 500, [], []⟩ :=
  C1_amended_config_error ⟨[], []⟩ defaultProxySettings "rid" "T0"
    (fun _ => .completed 200 (.jsonObj .nil)) "x" "y" "POST" none []
    (by decide)

/-!
Claim C2.  The claim states that every completed HTTP exchange ends the
call after that one attempt, with the parsed body (or wrapped raw text)
returned together with the backend status, `success` forced to the
status test, and `request_id`/timestamp injected.  This holds for
object bodies and unparseable bodies, but not for every completed
exchange: a body that parses to a non-object JSON document (for example
a JSON array) raises `TypeError` at the string-key assignment
`response_data["request_id"] = ...`; the generic `except` clause breaks
out of the loop and the call returns the synthetic CONNECTION_ERROR
payload with status 503 instead of the exchange status.
-/

/-- Claim C2, counterexample: a completed first exchange with status 200
whose body parses to the JSON array `[]` yields status 503 and a
CONNECTION_ERROR payload — not `(payload, 200)` as claimed for every
completed exchange. -/
theorem C2_counterexample :
    (forward_request cfgOne defaultProxySettings "rid" "T0"
      (fun _ => .completed 200 (.jsonOther (.arr .nil))) "billers" "fetch"
      "POST" (some .nil) []).status_code = 503 ∧
    (forward_request cfgOne defaultProxySettings "rid" "T0"
      (fun _ => .completed 200 (.jsonOther (.arr .nil))) "billers" "fetch"
      "POST" (some .nil) []).payload.getD "error_code" .null
      = .str "CONNECTION_ERROR" ∧
    (forward_request cfgOne defaultProxySettings "rid" "T0"
      (fun _ => .completed 200 (.jsonOther (.arr .nil))) "billers" "fetch"
      "POST" (some .nil) []).attempts.length = 1 := by
  refine ⟨rfl, ?_, rfl⟩
  decide

/-- Claim C2 (amended): for every first-attempt HTTP exchange that
completes with any status code and whose body is a JSON object or
unparseable text, `forward_request` returns after exactly that one
attempt with no sleeps and no further retries: the payload is the parsed
object (unparseable text wrapped as `\x7braw_response: text\x7d`) with
`request_id` and the fresh timestamp injected and `success` set to
whether the status lies in [200, 300) (overwriting any backend-provided
value), returned together with the backend status unchanged. -/
theorem C2_amended_completed_exchange (cfg : BBPSConfig) (ps : ProxySettings)
    (rid ts : String) (oracle : Nat → Outcome)
    (category endpoint_key method : String) (payload : Option JsonObj)
    (path_params : List (String × String)) (s : Nat) (body : HttpBody)
    (hurl : cfg.get_full_url category endpoint_key path_params ≠ "")
    (hv : validVerb method) (hmr : 0 < ps.max_retries)
    (ho : oracle 0 = .completed s body)
    (hb : ∀ v, body ≠ .jsonOther v) :
    forward_request cfg ps rid ts oracle category endpoint_key method
      payload path_params =
      ⟨injectEnvelopeFields (parsedBody body) rid ts s, s,
       [attRec (cfg.get_full_url category endpoint_key path_params)
         method payload], []⟩ ∧
    (forward_request cfg ps rid ts oracle category endpoint_key method
      payload path_params).payload.get? "success"
      = some (.bool (decide (200 ≤ s ∧ s < 300))) ∧
    (forward_request cfg ps rid ts oracle category endpoint_key method
      payload path_params).payload.get? "request_id" = some (.str rid) ∧
    (forward_request cfg ps rid ts oracle category endpoint_key method
      payload path_params).payload.get? "timestamp" = some (.str ts) := by
  obtain ⟨f, hf⟩ : ∃ f, ps.max_retries = f + 1 :=
    ⟨ps.max_retries - 1, by omega⟩
  have hmain : forward_request cfg ps rid ts oracle category endpoint_key
      method payload path_params =
      ⟨injectEnvelopeFields (parsedBody body) rid ts s, s,
       [attRec (cfg.get_full_url category endpoint_key path_params)
         method payload], []⟩ := by
    unfold forward_request
    rw [if_neg hurl, hf,
      attemptLoop_completed (f + 1) ps.retry_delay _ rid ts method
        payload oracle f 0 none s body hv ho]
    cases body with
    | jsonObj o => rfl
    | unparseable t => rfl
    | jsonOther v => exact absurd rfl (hb v)
  refine ⟨hmain, ?_, ?_, ?_⟩
  · rw [hmain]
    exact (injectEnvelopeFields_get (parsedBody body) rid ts s).1
  · rw [hmain]
    exact (injectEnvelopeFields_get (parsedBody body) rid ts s).2.1
  · rw [hmain]
    exact (injectEnvelopeFields_get (parsedBody body) rid ts s).2.2

/-- Claim C2, witness: property P3 of the specification via
`C2_amended_completed_exchange` — a backend answering 500 with body
`\x7b"message": "boom"\x7d` produces exactly one attempt, no sleeps, and
the payload-status pair `(injected body, 500)` with `success = false`. -/
theorem C2_witness :
    forward_request cfgOne defaultProxySettings "rid" "T0"
      (fun _ => .completed 500 (.jsonObj (.cons "message" (.str "boom") .nil)))
      "billers" "fetch" "POST" (some .nil) [] =
      ⟨injectEnvelopeFields
        (parsedBody (.jsonObj (.cons "message" (.str "boom") .nil)))
        "rid" "T0" 500, 500,
       [attRec "https://b.example/v1/all" "POST" (some .nil)], []⟩ ∧
    (forward_request cfgOne defaultProxySettings "rid" "T0"
      (fun _ => .completed 500 (.jsonObj (.cons "message" (.str "boom") .nil)))
      "billers" "fetch" "POST" (some .nil) []).payload.get? "success"
      = some (.bool false) :=
  have h := C2_amended_completed_exchange cfgOne defaultProxySettings
    "rid" "T0"
    (fun _ => .completed 500 (.jsonObj (.cons "message" (.str "boom") .nil)))
    "billers" "fetch" "POST" (some .nil) [] 500
    (.jsonObj (.cons "message" (.str "boom") .nil))
    (by decide) (by decide) (by decide) rfl
    (fun v hv => by cases hv)
  ⟨h.1, h.2.1⟩

/-!
Claim C10: injected correlation fields always win over backend-provided
ones.
-/

/-- Helper for claim C10: when the attempts before index `attempt + k`
all fail at transport level and the attempt at `attempt + k` completes
(with `k` iterations of fuel left to reach it), the loop ends with the
exit of that completed exchange, whatever the body shape. -/
theorem attemptLoop_exit_completed (mr : Nat) (rdel : ℚ)
    (url rid ts method : String) (payload : Option JsonObj)
    (oracle : Nat → Outcome) (hv : validVerb method) :
    ∀ (k fuel attempt : Nat) (le : Option String) (s : Nat)
      (body : HttpBody),
    k < fuel →
    (∀ i, i < k → isTransportFailure (oracle (attempt + i)) = true) →
    oracle (attempt + k) = .completed s body →
    (attemptLoop mr rdel url rid ts method payload oracle attempt fuel
      le).2.2 = completedExit rid ts s body
  | 0, fuel, attempt, le, s, body => by
      intro hk hfail ho
      obtain ⟨f, rfl⟩ : ∃ f, fuel = f + 1 := ⟨fuel - 1, by omega⟩
      rw [attemptLoop_completed mr rdel url rid ts method payload oracle
        f attempt le s body hv (by simpa using ho)]
  | k + 1, fuel, attempt, le, s, body => by
      intro hk hfail ho
      obtain ⟨f, rfl⟩ : ∃ f, fuel = f + 1 := ⟨fuel - 1, by omega⟩
      have h0 : isTransportFailure (oracle attempt) = true := by
        simpa using hfail 0 (by omega)
      have hfail1 : ∀ i, i < k →
          isTransportFailure (oracle (attempt + 1 + i)) = true := by
        intro i hi
        have h1 := hfail (i + 1) (by omega)
        have heq : attempt + (i + 1) = attempt + 1 + i := by omega
        rw [heq] at h1
        exact h1
      have ho1 : oracle (attempt + 1 + k) = .completed s body := by
        have heq : attempt + (k + 1) = attempt + 1 + k := by omega
        rw [heq] at ho
        exact ho
      cases hoa : oracle attempt with
      | completed s2 b2 =>
          rw [hoa] at h0
          simp [isTransportFailure] at h0
      | otherError m =>
          rw [hoa] at h0
          simp [isTransportFailure] at h0
      | timeout m =>
          rw [attemptLoop_timeout_step mr rdel url rid ts method payload
            oracle f attempt le m hv hoa]
          have ih := attemptLoop_exit_completed mr rdel url rid ts method
            payload oracle hv k f (attempt + 1) (some m) s body
            (by omega) hfail1 ho1
          by_cases hb : attempt < mr - 1
          · rw [if_pos hb]
            exact ih
          · rw [if_neg hb]
            exact ih
      | connectError m =>
          rw [attemptLoop_connectError_step mr rdel url rid ts method
            payload oracle f attempt le m hv hoa]
          have ih := attemptLoop_exit_completed mr rdel url rid ts method
            payload oracle hv k f (attempt + 1) (some m) s body
            (by omega) hfail1 ho1
          by_cases hb : attempt < mr - 1
          · rw [if_pos hb]
            exact ih
          · rw [if_neg hb]
            exact ih

/-- Claim C10: for every completed HTTP exchange — the attempt at any
index `k < max_retries` completing with any status and any body shape,
after transport failures on the earlier attempts — the raw payload
`forward_request` returns carries the engine-generated request id under
`request_id` and the engine-generated fresh timestamp under
`timestamp`, overwriting any values the backend body contained: the
caller can never observe a backend-chosen `request_id` or `timestamp`.
(On the non-object-body path the returned CONNECTION_ERROR payload
carries the same engine values.) -/
theorem C10_overwrite_ids (cfg : BBPSConfig) (ps : ProxySettings)
    (rid ts : String) (oracle : Nat → Outcome)
    (category endpoint_key method : String) (payload : Option JsonObj)
    (path_params : List (String × String)) (k s : Nat) (body : HttpBody)
    (hurl : cfg.get_full_url category endpoint_key path_params ≠ "")
    (hv : validVerb method) (hk : k < ps.max_retries)
    (hfail : ∀ i, i < k → isTransportFailure (oracle i) = true)
    (ho : oracle k = .completed s body) :
    (forward_request cfg ps rid ts oracle category endpoint_key method
      payload path_params).payload.get? "request_id" = some (.str rid) ∧
    (forward_request cfg ps rid ts oracle category endpoint_key method
      payload path_params).payload.get? "timestamp" = some (.str ts) := by
  have hex := attemptLoop_exit_completed ps.max_retries ps.retry_delay
    (cfg.get_full_url category endpoint_key path_params) rid ts method
    payload oracle hv k ps.max_retries 0 none s body hk
    (fun i hi => by simpa using hfail i hi) (by simpa using ho)
  unfold forward_request
  rw [if_neg hurl]
  rcases hA : attemptLoop ps.max_retries ps.retry_delay
      (cfg.get_full_url category endpoint_key path_params) rid ts method
      payload oracle 0 ps.max_retries none with ⟨atts, sl, ex⟩
  rw [hA] at hex
  have hex1 : ex = completedExit rid ts s body := hex
  subst hex1
  cases body with
  | jsonObj o =>
      exact ⟨(injectEnvelopeFields_get o rid ts s).2.1,
        (injectEnvelopeFields_get o rid ts s).2.2⟩
  | unparseable t =>
      exact ⟨(injectEnvelopeFields_get
          (.cons "raw_response" (.str t) .nil) rid ts s).2.1,
        (injectEnvelopeFields_get
          (.cons "raw_response" (.str t) .nil) rid ts s).2.2⟩
  | jsonOther v =>
      constructor <;> simp [completedExit, CONNECTION_ERROR_payload,
        JsonObj.get?]

/-- Claim C10, witness: `C10_overwrite_ids` on a run whose first attempt
times out and whose second attempt completes with a backend body that
tries to supply its own `request_id` and `timestamp`; the returned
payload carries the engine values. -/
theorem C10_witness :
    (forward_request cfgOne defaultProxySettings "rid" "T0"
      (fun n => match n with
        | 0 => Outcome.timeout "t0"
        | _ + 1 => .completed 200 (.jsonObj
            (.cons "request_id" (.str "backend-id")
              (.cons "timestamp" (.str "1999-01-01") .nil))))
      "billers" "fetch" "POST" (some .nil) []).payload.get? "request_id"
      = some (.str "rid") ∧
    (forward_request cfgOne defaultProxySettings "rid" "T0"
      (fun n => match n with
        | 0 => Outcome.timeout "t0"
        | _ + 1 => .completed 200 (.jsonObj
            (.cons "request_id" (.str "backend-id")
              (.cons "timestamp" (.str "1999-01-01") .nil))))
      "billers" "fetch" "POST" (some .nil) []).payload.get? "timestamp"
      = some (.str "T0") :=
  C10_overwrite_ids cfgOne defaultProxySettings "rid" "T0"
    (fun n => match n with
      | 0 => Outcome.timeout "t0"
      | _ + 1 => .completed 200 (.jsonObj
          (.cons "request_id" (.str "backend-id")
            (.cons "timestamp" (.str "1999-01-01") .nil))))
    "billers" "fetch" "POST" (some .nil) [] 1 200 _
    (by decide) (by decide) (by decide)
    (fun i hi => by
      have hi0 : i = 0 := by omega
      subst hi0
      rfl)
    rfl

/-!
Claim C8: log redaction versus the wire payload.
-/

/-- Claim C8: the payload copy placed in the `log_request` record is the
caller payload with exactly the fields whose lowercased name is
`password`, `pin`, `otp` or `cvv` omitted (an entry survives redaction
iff it was present and its lowercased key is not sensitive), while every
network dispatch `forward_request` performs for a POST or PUT verb hands
the HTTP client the caller\x27s payload object itself, unredacted. -/
theorem C8_redaction (category endpoint method rid ts : String)
    (rd : JsonObj) (hne : rd.isEmpty = false) :
    (log_request_record category endpoint method (some rd) rid ts).get?
      "payload" = some (.obj (redact rd)) ∧
    (∀ k v, (k, v) ∈ (redact rd).entries ↔
      ((k, v) ∈ rd.entries ∧ sensitiveKeys.contains (strLower k) = false)) ∧
    (∀ (cfg : BBPSConfig) (ps : ProxySettings) (oracle : Nat → Outcome)
       (payload : Option JsonObj) (path_params : List (String × String))
       (a : NetAttempt),
      (strUpper method = "POST" ∨ strUpper method = "PUT") →
      a ∈ (forward_request cfg ps rid ts oracle category endpoint method
        payload path_params).attempts →
      a.body = payload) := by
  refine ⟨?_, ?_, ?_⟩
  · simp only [log_request_record, hne, Bool.not_false, if_true]
    exact JsonObj.get?_set_self _ _ _
  · intro k v
    rw [redact, JsonObj.mem_entries_filterKeys, Bool.not_eq_true']
  · intro cfg ps oracle payload path_params a hm hmem
    by_cases hurl : cfg.get_full_url category endpoint path_params = ""
    · unfold forward_request at hmem
      rw [if_pos hurl] at hmem
      simp at hmem
    · rw [forward_request_attempts_eq cfg ps rid ts oracle category endpoint
        method payload path_params hurl] at hmem
      have ha := attemptLoop_mem_attempts ps.max_retries ps.retry_delay
        (cfg.get_full_url category endpoint path_params) rid ts method
        payload oracle ps.max_retries 0 none a hmem
      rw [ha, attRec, sentBody, if_pos hm]

/-- Claim C8, witness: `C8_redaction` applied to a payload carrying a
`PIN` field: the logged copy drops it (case-insensitively), while the
dispatched POST body is the untouched payload, `PIN` included. -/
theorem C8_witness :
    (log_request_record "billers" "fetch" "POST"
      (some (.cons "customerId" (.str "1") (.cons "PIN" (.str "1234") .nil)))
      "rid" "T0").get? "payload"
      = some (.obj (.cons "customerId" (.str "1") .nil)) ∧
    (forward_request cfgOne defaultProxySettings "rid" "T0"
      (fun _ => .completed 200 (.jsonObj .nil)) "billers" "fetch" "POST"
      (some (.cons "customerId" (.str "1") (.cons "PIN" (.str "1234") .nil)))
      []).attempts =
      [⟨"https://b.example/v1/all", "POST",
        some (.cons "customerId" (.str "1")
          (.cons "PIN" (.str "1234") .nil))⟩] := by
  have h := C8_redaction "billers" "fetch" "POST" "rid" "T0"
    (.cons "customerId" (.str "1") (.cons "PIN" (.str "1234") .nil))
    (by decide)
  constructor
  · rw [h.1]
    decide
  · rfl

/-!
Claim C3: exhaustion of the retry loop on persistent transport
failures.
-/

/-- Claim C3: when every attempt fails with a timeout or connection
error, `forward_request` performs exactly `max_retries` network
attempts, sleeps `retry_delay * 2 ^ attempt` seconds after each failed
attempt except the last (attempt 0-indexed, so the sleeps are the
backoff values for attempts `0 .. max_retries - 2` in order), and
returns the synthetic payload `\x7bsuccess: false, message: "Failed to
connect to BBPS backend", error_code: "CONNECTION_ERROR",
details: <last error>, request_id, timestamp\x7d` with HTTP status 503.
(`max_retries` defaults to 3 via `defaultProxySettings`.) -/
theorem C3_retry_exhaustion (cfg : BBPSConfig) (ps : ProxySettings)
    (rid ts : String) (oracle : Nat → Outcome)
    (category endpoint_key method : String) (payload : Option JsonObj)
    (path_params : List (String × String))
    (hurl : cfg.get_full_url category endpoint_key path_params ≠ "")
    (hv : validVerb method) (hmr : 0 < ps.max_retries)
    (hfail : ∀ i, i < ps.max_retries →
      isTransportFailure (oracle i) = true) :
    forward_request cfg ps rid ts oracle category endpoint_key method
      payload path_params =
      ⟨CONNECTION_ERROR_payload (failMsg (oracle (ps.max_retries - 1)))
        rid ts, 503,
       List.replicate ps.max_retries
        (attRec (cfg.get_full_url category endpoint_key path_params)
          method payload),
       (List.range (ps.max_retries - 1)).map
        (fun i => ps.retry_delay * 2 ^ i)⟩ := by
  have hall := attemptLoop_allFail ps.max_retries ps.retry_delay
    (cfg.get_full_url category endpoint_key path_params) rid ts method
    payload oracle hv ps.max_retries 0 none (by omega)
    (fun i hi => by simpa using hfail i hi)
  unfold forward_request
  rw [if_neg hurl, hall]
  obtain ⟨f, hf⟩ : ∃ f, ps.max_retries = f + 1 :=
    ⟨ps.max_retries - 1, by omega⟩
  rw [hf]
  simp [exhaustMsg, List.range_eq_range']

/-- Claim C3, witness: `C3_retry_exhaustion` with the default settings
(`max_retries = 3`, `retry_delay = 1`) and a persistently unreachable
backend: exactly 3 attempts, backoff sleeps of 1 and 2 seconds, and the
CONNECTION_ERROR payload with status 503 and the last error in
`details`. -/
theorem C3_witness :
    forward_request cfgOne defaultProxySettings "rid" "T0"
      (fun _ => .connectError "refused") "billers" "fetch" "POST"
      (some .nil) [] =
      ⟨CONNECTION_ERROR_payload (some "refused") "rid" "T0", 503,
       List.replicate 3 (attRec "https://b.example/v1/all" "POST"
         (some .nil)),
       [1, 2]⟩ := by
  have h := C3_retry_exhaustion cfgOne defaultProxySettings "rid" "T0"
    (fun _ => .connectError "refused") "billers" "fetch" "POST"
    (some .nil) [] (by decide) (by decide) (by decide) (fun i _ => rfl)
  have hr : (List.range (defaultProxySettings.max_retries - 1)).map
      (fun i => defaultProxySettings.retry_delay * 2 ^ i) = [1, 2] := by
    have h01 : List.range (defaultProxySettings.max_retries - 1) = [0, 1] :=
      rfl
    rw [h01]
    norm_num [defaultProxySettings]
  rw [h, hr]
  rfl

end BBPS
